import Mathlib

/-!
# Verification of the vcp-intellicore-sdk core against its specification

Shallow embedding, in Lean 4, of the parts of the TypeScript source that the
frozen claims are about:

* `VCPProtocolParser` (src/CONTRIBUTING.md, embedded source block) —
  `parseToolRequests`, `parseRequestBlock`, `hasToolRequests`;
* `VariableEngine` (src/unnamed/part_012) — `resolveAll` / `resolveRecursive`
  with cycle detection and the recursion-depth cap;
* `PluginRuntime` (src/src/plugin/PluginRuntime.ts) —
  `registerPlugin`, `registerDistributedTools`, `rebuildVCPDescriptions`;
* `DistributedServerChannelSDK`
  (src/src/communication/channels/DistributedServerChannelSDK.ts) —
  `handleToolResult`, `executeDistributedTool` (pending table and the timeout
  callback), `onConnectionClosed` / `cleanupPendingRequests`;
* `FileFetcher` (src/src/communication/FileFetcher.ts) — `fetchFile` and its
  three resolution layers.

Text is modelled as `List Char`; JavaScript `Map`s as insertion-ordered
association lists; promises as explicit outcome values; timers and socket
events as explicit state transitions.  Asynchronous effects (actual timer
scheduling, socket I/O) are abstracted to the state changes and outcomes the
corresponding handler bodies produce.
-/

deriving instance DecidableEq for Except

namespace VCP

abbrev Chars := List Char

def lit (s : String) : Chars := s.toList

/-- `\s` of JavaScript regexes / `String.prototype.trim`, restricted to the
whitespace characters that actually occur in the sources and test inputs. -/
def isWs (c : Char) : Bool :=
  c = ' ' || c = '\t' || c = '\n' || c = '\r' ||
  c = Char.ofNat 11 || c = Char.ofNat 12

/-- JS `String.prototype.trim` on char lists. -/
def jsTrim (s : Chars) : Chars :=
  ((s.dropWhile isWs).reverse.dropWhile isWs).reverse

/-- Position of the first occurrence of `pat` in `s` (`String.indexOf` with
start offset 0), as an option. -/
def firstMatchPos (pat : Chars) : Chars → Option Nat
  | [] => if pat = [] then some 0 else none
  | c :: rest =>
    if pat.isPrefixOf (c :: rest) then some 0
    else (firstMatchPos pat rest).map (· + 1)

/-- JS `content.indexOf(pat, start)` (non-negative result as `some`). -/
def indexOfFrom (pat : Chars) (s : Chars) (start : Nat) : Option Nat :=
  (firstMatchPos pat (s.drop start)).map (· + start)

/-- `pat` occurs somewhere in `s` (JS `String.prototype.includes`). -/
def containsSub (pat : Chars) (s : Chars) : Bool :=
  (firstMatchPos pat s).isSome

/-- Worker of `replaceAllSub`.  `fuel` only bounds the recursion (each step
consumes at least one character, so `s.length` units never run out); the
definition is kept structural so that proofs can evaluate it. -/
def replaceAllGo (pat repl : Chars) : Nat → Chars → Chars
  | _, [] => []
  | 0, s => s
  | f + 1, c :: rest =>
    if pat ≠ [] ∧ pat.isPrefixOf (c :: rest) then
      repl ++ replaceAllGo pat repl f ((c :: rest).drop pat.length)
    else
      c :: replaceAllGo pat repl f rest

/-- Replace every (leftmost, non-overlapping) occurrence of `pat` by `repl`:
JS `content.replace(new RegExp(escapeRegex(pat), 'g'), repl)` for a
replacement string without `$` patterns. -/
def replaceAllSub (pat repl : Chars) (s : Chars) : Chars :=
  replaceAllGo pat repl s.length s

/-- JS `\w` character class (`[A-Za-z0-9_]`). -/
def isWordChar (c : Char) : Bool :=
  ('a' ≤ c && c ≤ 'z') || ('A' ≤ c && c ≤ 'Z') || ('0' ≤ c && c ≤ '9') || c = '_'

/-- Insertion-ordered association-list update, mirroring both JS `Map.set`
and JS object property assignment: replace in place if the key exists,
otherwise append. -/
def setAssoc {α : Type} [DecidableEq α] {β : Type} :
    List (α × β) → α → β → List (α × β)
  | [], k, v => [(k, v)]
  | (k₀, v₀) :: rest, k, v =>
    if k₀ = k then (k₀, v) :: rest else (k₀, v₀) :: setAssoc rest k v

/-- JS `Map.get` on the association-list model. -/
def getAssoc {α : Type} [DecidableEq α] {β : Type} :
    List (α × β) → α → Option β
  | [], _ => none
  | (k₀, v₀) :: rest, k => if k₀ = k then some v₀ else getAssoc rest k

/-- JS `Map.delete` on the association-list model. -/
def delAssoc {α : Type} [DecidableEq α] {β : Type} :
    List (α × β) → α → List (α × β)
  | [], _ => []
  | (k₀, v₀) :: rest, k =>
    if k₀ = k then rest else (k₀, v₀) :: delAssoc rest k

/-! ## Protocol parser (`VCPProtocolParser`)

Embeds `parseToolRequests`, `parseRequestBlock` and `hasToolRequests` from
the `VCPProtocolParser` class.  The parameter-extraction regex
`([\w_]+)\s*:\s*「始」([\s\S]*?)「末」\s*(?:,)?` applied with the `g` flag is
embedded as a left-to-right scanner: at each position it tries to match a
maximal word run, optional whitespace, a colon, optional whitespace, the
opening value sigil, the (lazy) value up to the first closing sigil, then
trailing whitespace and an optional comma; on failure it advances one
character.  (Backtracking into a shorter word run cannot help the regex,
since the character after a maximal run is never whitespace or a colon, so
the maximal-run scanner is equivalent.) -/

structure ProtocolConfig where
  toolRequestStartMarker : Chars
  toolRequestEndMarker : Chars
  paramStartMarker : Chars
  paramEndMarker : Chars
deriving DecidableEq, Repr

/-- `DEFAULT_CONFIG` of the parser. -/
def defaultProtocolConfig : ProtocolConfig :=
  { toolRequestStartMarker := lit "<<<[TOOL_REQUEST]>>>"
    toolRequestEndMarker := lit "<<<[END_TOOL_REQUEST]>>>"
    paramStartMarker := lit "「始」"
    paramEndMarker := lit "「末」" }

/-- `VCPToolRequest` as produced by `parseRequestBlock`: `args` keeps JS
object insertion order. -/
structure ToolRequest where
  name : Chars
  args : List (Chars × Chars)
  archery : Bool
  rawText : Chars
deriving DecidableEq, Repr

/-- The optional trailing comma of the parameter regex (`(?:,)?`). -/
def afterComma : Chars → Chars
  | ',' :: t => t
  | t => t

theorem length_dropWhile_le {p : Char → Bool} (l : Chars) :
    (l.dropWhile p).length ≤ l.length := by
  induction l with
  | nil => simp [List.dropWhile]
  | cons c rest ih =>
    simp only [List.dropWhile]
    cases p c
    · simp
    · simpa using Nat.le_succ_of_le ih

theorem afterComma_length_le (l : Chars) : (afterComma l).length ≤ l.length := by
  unfold afterComma
  split
  · simp
  · exact Nat.le_refl _

/-- Everything after the matched value: skip the closing sigil, trailing
whitespace and the optional comma (`「末」\s*(?:,)?`). -/
def matchTail (em : Chars) (i : Nat) (r : Chars) : Chars :=
  afterComma ((r.drop (i + em.length)).dropWhile isWs)

theorem matchTail_length_le (em : Chars) (i : Nat) (r : Chars) :
    (matchTail em i r).length ≤ r.length := by
  unfold matchTail
  calc (afterComma ((r.drop (i + em.length)).dropWhile isWs)).length
      ≤ ((r.drop (i + em.length)).dropWhile isWs).length := afterComma_length_le _
    _ ≤ (r.drop (i + em.length)).length := length_dropWhile_le _
    _ ≤ r.length := by rw [List.length_drop]; omega

/-- One attempted match of the parameter regex at the head of `s`.  Returns
the captured key, the raw (untrimmed) value capture, and the rest of the
input after the match (the regex `lastIndex`). -/
def matchParamAt (sm em : Chars) (s : Chars) : Option (Chars × Chars × Chars) :=
  if s.takeWhile isWordChar = [] then none
  else
    match (s.drop (s.takeWhile isWordChar).length).dropWhile isWs with
    | ':' :: r₃ =>
      if sm.isPrefixOf (r₃.dropWhile isWs) then
        match firstMatchPos em ((r₃.dropWhile isWs).drop sm.length) with
        | some i =>
          some (s.takeWhile isWordChar,
                ((r₃.dropWhile isWs).drop sm.length).take i,
                matchTail em i ((r₃.dropWhile isWs).drop sm.length))
        | none => none
      else none
    | _ => none

theorem matchParamAt_shrinks {sm em s k v t : Chars}
    (h : matchParamAt sm em s = some (k, v, t)) : t.length < s.length := by
  unfold matchParamAt at h
  split at h
  · exact absurd h (by simp)
  · rename_i hk
    split at h
    · rename_i r₃ hr₃
      split at h
      · rename_i hpre
        split at h
        · rename_i i hfm
          simp only [Option.some.injEq, Prod.mk.injEq] at h
          obtain ⟨-, -, ht⟩ := h
          have hkey : 0 < (s.takeWhile isWordChar).length := List.length_pos.mpr hk
          have hkeyle : (s.takeWhile isWordChar).length ≤ s.length :=
        (List.takeWhile_sublist (l := s) (p := isWordChar)).length_le
          have hr₃len : r₃.length + 1 ≤ s.length - (s.takeWhile isWordChar).length := by
            have h₁ : ((s.drop (s.takeWhile isWordChar).length).dropWhile isWs).length
                ≤ s.length - (s.takeWhile isWordChar).length := by
              calc ((s.drop (s.takeWhile isWordChar).length).dropWhile isWs).length
                  ≤ (s.drop (s.takeWhile isWordChar).length).length := length_dropWhile_le _
                _ = s.length - (s.takeWhile isWordChar).length := List.length_drop _ _
            rw [hr₃] at h₁
            simpa using h₁
          have htlen : t.length ≤ r₃.length := by
            rw [← ht]
            calc (matchTail em i ((r₃.dropWhile isWs).drop sm.length)).length
                ≤ ((r₃.dropWhile isWs).drop sm.length).length := matchTail_length_le _ _ _
              _ ≤ (r₃.dropWhile isWs).length := by rw [List.length_drop]; omega
              _ ≤ r₃.length := length_dropWhile_le _
          omega
        · exact absurd h (by simp)
      · exact absurd h (by simp)
    · exact absurd h (by simp)

/-- Worker of `scanParams`.  `fuel` only bounds the recursion: by
`matchParamAt_shrinks` every step consumes at least one character, so
`s.length` units never run out. -/
def scanParamsGo (sm em : Chars) : Nat → Chars → List (Chars × Chars)
  | _, [] => []
  | 0, _ => []
  | f + 1, c :: rest =>
    match matchParamAt sm em (c :: rest) with
    | some (k, v, t) => (k, v) :: scanParamsGo sm em f t
    | none => scanParamsGo sm em f rest

/-- The `while`-loop of `parseRequestBlock`'s `paramRegex.exec`: collect
all matches left to right, advancing one character where no match starts. -/
def scanParams (sm em : Chars) (s : Chars) : List (Chars × Chars) :=
  scanParamsGo sm em s.length s

/-- The field-dispatch `while` loop of `parseRequestBlock` (lines 634-646 of
the embedded parser source): `tool_name` is captured separately, `archery`
sets the fire-and-forget flag (true exactly when the trimmed value is
`"true"` or `"no_reply"`; a later occurrence overwrites an earlier one, as
does reassignment of the JS variable), and every other field goes into the
argument object.  Values are trimmed before dispatch (`match[2].trim()`). -/
def paramStep (acc : Option Chars × List (Chars × Chars) × Bool)
    (kv : Chars × Chars) : Option Chars × List (Chars × Chars) × Bool :=
  let key := kv.1
  let value := jsTrim kv.2
  if key = lit "tool_name" then (some value, acc.2.1, acc.2.2)
  else if key = lit "archery" then
    (acc.1, acc.2.1, value = lit "true" || value = lit "no_reply")
  else (acc.1, setAssoc acc.2.1 key value, acc.2.2)

def processParams (ps : List (Chars × Chars)) :
    Option Chars × List (Chars × Chars) × Bool :=
  ps.foldl paramStep (none, [], false)

/-- `parseRequestBlock`: `null` when no (or an empty, JS-falsy) `tool_name`
was found. -/
def parseRequestBlock (cfg : ProtocolConfig) (blockContent : Chars) :
    Option ToolRequest :=
  match processParams (scanParams cfg.paramStartMarker cfg.paramEndMarker blockContent) with
  | (some nm, args, arch) =>
    if nm = [] then none
    else some { name := nm, args := args, archery := arch, rawText := blockContent }
  | (none, _, _) => none

/-- The `while (searchOffset < content.length)` loop of `parseToolRequests`.
`gas` is a fuel argument for termination only: every iteration advances
`searchOffset` past a non-empty marker, so `content.length + 1` units are
never exhausted (for empty markers the source loops forever). -/
def parseLoop (cfg : ProtocolConfig) (content : Chars) :
    Nat → Nat → List ToolRequest
  | _, 0 => []
  | offset, g + 1 =>
    if offset < content.length then
      match indexOfFrom cfg.toolRequestStartMarker content offset with
      | none => []
      | some si =>
        match indexOfFrom cfg.toolRequestEndMarker content
            (si + cfg.toolRequestStartMarker.length) with
        | none => parseLoop cfg content (si + cfg.toolRequestStartMarker.length) g
        | some ei =>
          let block :=
            jsTrim ((content.take ei).drop (si + cfg.toolRequestStartMarker.length))
          let rest := parseLoop cfg content (ei + cfg.toolRequestEndMarker.length) g
          match parseRequestBlock cfg block with
          | some tr => tr :: rest
          | none => rest
    else []

/-- `parseToolRequests`. -/
def parseToolRequests (cfg : ProtocolConfig) (content : Chars) : List ToolRequest :=
  parseLoop cfg content 0 (content.length + 1)

/-- `hasToolRequests`: `content.includes(this.config.toolRequestStartMarker)`. -/
def hasToolRequests (cfg : ProtocolConfig) (content : Chars) : Bool :=
  containsSub cfg.toolRequestStartMarker content

/-! ## Template engine (`VariableEngine`)

Embeds `resolveAll` / `resolveRecursive` / `resolveSingle`.  TS recursion
depth is carried here as remaining gas `gas = maxRecursionDepth − depth`
(the source checks `depth >= maxRecursionDepth` on frame entry, so `gas = 0`
is exactly that check firing, and every child call uses `gas − 1`).
The mutable per-call `processingStack` (a JS `Set`, insertion-ordered) is
threaded explicitly; a non-circular error escaping a frame can only be the
entry-time depth/fan-out check of that frame, which happens before any stack
mutation, so threading the stack through `Except` values loses nothing. -/

/-- `VariableEngineOptions`. -/
structure EngineOptions where
  enableRecursion : Bool
  maxRecursionDepth : Nat
  detectCircular : Bool
deriving DecidableEq, Repr

/-- `DEFAULT_OPTIONS` of the engine. -/
def defaultEngineOptions : EngineOptions :=
  { enableRecursion := true, maxRecursionDepth := 10, detectCircular := true }

/-- Errors `resolveAll` can surface (`VCPError` codes plus
`CircularDependencyError`), with the payloads each carries. -/
inductive VErr where
  | maxRecursionDepth (content : Chars)
  | tooManyPlaceholders (count : Nat)
  | circular (key : Chars) (stack : List Chars)
deriving DecidableEq, Repr

/-- `error instanceof CircularDependencyError`. -/
def VErr.isCircular : VErr → Bool
  | .circular _ _ => true
  | _ => false

/-- Character class of placeholder keys (`[a-zA-Z0-9_:]`). -/
def isKeyChar (c : Char) : Bool :=
  isWordChar c || c = ':'

/-- Worker of `extractRaw` (`fuel` only bounds the recursion; every step
consumes at least one character). -/
def extractRawGo : Nat → Chars → List (Chars × Chars)
  | _, [] => []
  | 0, _ => []
  | f + 1, '{' :: '{' :: r =>
    let key := r.takeWhile isKeyChar
    if key ≠ [] ∧ (lit "\x7d\x7d").isPrefixOf (r.drop key.length) then
      (key, '{' :: '{' :: (key ++ '}' :: '}' :: [])) ::
        extractRawGo f ((r.drop key.length).drop 2)
    else extractRawGo f ('{' :: r)
  | f + 1, _ :: rest => extractRawGo f rest

/-- Placeholder scan of `/\{\{([a-zA-Z0-9_:]+)\}\}/g`: pairs of (key, full
match), left to right, non-overlapping. -/
def extractRaw (s : Chars) : List (Chars × Chars) :=
  extractRawGo s.length s

/-- Key-wise deduplication at the end of `extractPlaceholders`. -/
def dedupGo (seen : List Chars) : List (Chars × Chars) → List (Chars × Chars)
  | [] => []
  | (k, f) :: rest =>
    if k ∈ seen then dedupGo seen rest else (k, f) :: dedupGo (k :: seen) rest

/-- `extractPlaceholders`. -/
def extractPlaceholders (content : Chars) : List (Chars × Chars) :=
  dedupGo [] (extractRaw content)

/-- `MAX_PLACEHOLDERS` (DoS guard). -/
def MAX_PLACEHOLDERS : Nat := 100

/-- `processingStack.add` (JS `Set.add`: no duplicate, insertion order kept). -/
def addStack (k : Chars) (s : List Chars) : List Chars :=
  if k ∈ s then s else s ++ [k]

/-- `processingStack.delete`. -/
def eraseStack (k : Chars) (s : List Chars) : List Chars :=
  s.erase k

/-- A registered provider, as consulted by the engine: `resolve(key, ctx)`
returning a value or `null`.  (The providers the claims use are static maps
and never throw, so provider-thrown errors are not modelled; the `catch`
branch of the source still matters and is reached by errors of the nested
`resolveRecursive` call, which the embedding propagates into it.) -/
abbrev Provider := Chars → Option Chars

/-- The `for (const provider of this.providers.values())` loop with its
`try/catch`, parameterized by `child`, the recursive resolution of a
provider value one depth level down: on a non-null provider value, push the
key and recurse into the value; a successful recursion breaks the loop
(popping the key); a `CircularDependencyError` is rethrown; any other error
is swallowed and the loop continues with `resolved` still holding the
provider's raw value and the key left on the stack (the skipped `delete`). -/
def providerLoopF (child : Chars → List Chars → Except VErr (Chars × List Chars)) :
    List Provider → Chars → Option Chars → List Chars →
    Except VErr (Option Chars × List Chars)
  | [], _, resolved, stack => .ok (resolved, stack)
  | p :: ps, key, _, stack =>
    match p key with
    | none => providerLoopF child ps key none stack
    | some v =>
      let stack' := addStack key stack
      match child v stack' with
      | .ok (r, stack₂) => .ok (some r, eraseStack key stack₂)
      | .error e =>
        if e.isCircular then .error e
        else providerLoopF child ps key (some v) stack'

/-- The `for (const placeholder of placeholders)` loop: collects the
replacement map (insertion-ordered) and threads the processing stack. -/
def goPlaceholdersF (dc : Bool) (P : List Provider)
    (child : Chars → List Chars → Except VErr (Chars × List Chars)) :
    List (Chars × Chars) → List Chars → List (Chars × Chars) →
    Except VErr (List (Chars × Chars) × List Chars)
  | [], stack, reps => .ok (reps, stack)
  | (key, full) :: rest, stack, reps =>
    if dc ∧ key ∈ stack then .error (.circular key stack)
    else
      match providerLoopF child P key none stack with
      | .error e => .error e
      | .ok (res, stack') =>
        let reps' := match res with
          | some r => reps ++ [(full, r)]
          | none => reps
        goPlaceholdersF dc P child rest stack' reps'

/-- `resolveRecursive(content, context, processingStack, depth)`.  Returns
the resolved content together with the processing stack as mutated by the
call; the TS depth argument is carried as remaining gas
(`maxRecursionDepth − depth`), so gas 0 is the `depth >= maxRecursionDepth`
entry check firing. -/
def resolveRec (dc : Bool) (P : List Provider) :
    Nat → Chars → List Chars → Except VErr (Chars × List Chars)
  | 0, content, _ => .error (.maxRecursionDepth content)
  | g + 1, content, stack =>
    let phs := extractPlaceholders content
    if phs.length > MAX_PLACEHOLDERS then .error (.tooManyPlaceholders phs.length)
    else
      match goPlaceholdersF dc P (resolveRec dc P g) phs stack [] with
      | .error e => .error e
      | .ok (reps, stack') =>
        .ok (reps.foldl (fun c kv => replaceAllSub kv.1 kv.2 c) content, stack')

/-- `resolveSingle` (non-recursive branch, `enableRecursion: false`). -/
def resolveSingle (P : List Provider) (content : Chars) : Chars :=
  let phs := extractPlaceholders content
  let reps := phs.foldl
    (fun acc kf =>
      match P.findSome? (fun p => p kf.1) with
      | some v => acc ++ [(kf.2, v)]
      | none => acc) []
  reps.foldl (fun c kv => replaceAllSub kv.1 kv.2 c) content

/-- `resolveAll(content, context)`: empty content short-circuits to `''`;
otherwise the recursive or single-pass resolver runs with a fresh
processing stack and depth 0 (gas `maxRecursionDepth`). -/
def resolveAll (opts : EngineOptions) (P : List Provider) (content : Chars) :
    Except VErr Chars :=
  if content = [] then .ok []
  else if opts.enableRecursion then
    (resolveRec opts.detectCircular P opts.maxRecursionDepth content []).map (·.1)
  else
    .ok (resolveSingle P content)

/-! ## Plugin runtime (`PluginRuntime`)

Embeds `registerPlugin` (validation, per-kind dispatch, insertion, catalog
rebuild), `registerDistributedTools` and `rebuildVCPDescriptions`.  The
manifest `type` is a plain string in TS (unknown values hit the `default`
switch arm); `capabilities?.invocationCommands` is the only use of
`capabilities`, so it is collapsed into one optional command list. -/

/-- JS truthiness of an optional string field (`undefined` and `''` falsy). -/
def jsTruthy : Option String → Bool
  | none => false
  | some s => s ≠ ""

/-- `invocationCommands` entry. -/
structure InvocationCommand where
  command : Option String := none
  description : Option String := none
  «example» : Option String := none
deriving DecidableEq, Repr

/-- `PluginManifest` (the fields the embedded operations read). -/
structure Manifest where
  id : String
  name : String
  type : String
  serverId : Option String := none
  capabilities : Option (List InvocationCommand) := none
deriving DecidableEq, Repr

/-- Events `PluginRuntime` emits (the ones relevant to the claims). -/
inductive RTEvent where
  | pluginRegistered (id : String)
  | pluginUnloaded (id : String)
deriving DecidableEq, Repr

/-- `VCPError` codes raised by the registration path. -/
inductive RTErr where
  | invalidPluginManifest
  | pluginLoadError (id : String)
deriving DecidableEq, Repr

/-- The runtime's mutable tables (those the claims touch).  `descriptions`
is `individualPluginDescriptions`; its rendered values are char lists. -/
structure RuntimeState where
  plugins : List (String × Manifest) := []
  distributedTools : List (String × Manifest) := []
  descriptions : List (String × Chars) := []
  preprocessorOrder : List String := []
  serviceModules : List (String × Manifest) := []
deriving DecidableEq, Repr

/-- JS `String.prototype.split('\n')`. -/
def splitOnNl : Chars → List Chars
  | [] => [[]]
  | c :: rest =>
    if c = '\n' then [] :: splitOnNl rest
    else
      match splitOnNl rest with
      | h :: t => (c :: h) :: t
      | [] => [[c]]

/-- JS `Array.prototype.join(sep)`. -/
def joinWith (sep : Chars) : List Chars → Chars
  | [] => []
  | [x] => x
  | x :: y :: xs => x ++ sep ++ joinWith sep (y :: xs)

/-- Indent every line of a block by four spaces
(`split('\n').map(line => '    ' + line).join('\n')`). -/
def indent4 (s : Chars) : Chars :=
  joinWith (lit "\n") ((splitOnNl s).map (fun line => lit "    " ++ line))

/-- One command block of `rebuildVCPDescriptions` (lines 793-811):
`- <name> (<id>) - 命令: <command || 'N/A'>:\n` + indented description,
plus `\n  调用示例:\n` + indented example when the example is truthy. -/
def cmdDescription (p : Manifest) (cmd : InvocationCommand) : Chars :=
  lit "- " ++ lit p.name ++ lit " (" ++ lit p.id ++ lit ") - 命令: " ++
    (if jsTruthy cmd.command then lit (cmd.command.getD "") else lit "N/A") ++
    lit ":\n" ++
  indent4 (lit (cmd.description.getD "")) ++
  (if jsTruthy cmd.«example» then
      lit "\n  调用示例:\n" ++ indent4 (lit (cmd.«example».getD ""))
    else [])

/-- `rebuildVCPDescriptions`: clear, then for every plugin (insertion
order) with a non-empty command list, render every command having a truthy
description, join with blank lines and store under `VCP<id>`. -/
def rebuildVCPDescriptions (plugins : List (String × Manifest)) :
    List (String × Chars) :=
  plugins.foldl
    (fun acc kv =>
      let p := kv.2
      match p.capabilities with
      | none => acc
      | some cmds =>
        if cmds = [] then acc
        else
          let blocks := (cmds.filter (fun c => jsTruthy c.description)).map
            (cmdDescription p)
          if blocks = [] then acc
          else setAssoc acc ("VCP" ++ p.id) (joinWith (lit "\n\n") blocks))
    []

/-- The set of `manifest.type` values with a `case` arm in `registerPlugin`
(anything else falls to the `default` arm and throws). -/
def knownPluginTypes : List String :=
  ["distributed", "direct", "preprocessor", "service", "static", "internal"]

/-- `registerPlugin`: validate `id`/`name`/`type` (JS truthiness), run the
per-kind handler, insert into the primary registry, rebuild the catalog,
emit `plugin_registered`.  Any error inside the `try` is wrapped as
`PLUGIN_LOAD_ERROR`. -/
def registerPlugin (st : RuntimeState) (m : Manifest) :
    Except RTErr (RuntimeState × List RTEvent) :=
  if ¬ jsTruthy (some m.id) then .error (.pluginLoadError m.id)
  else if ¬ jsTruthy (some m.name) then .error (.pluginLoadError m.id)
  else if ¬ jsTruthy (some m.type) then .error (.pluginLoadError m.id)
  else if m.type ∉ knownPluginTypes then .error (.pluginLoadError m.id)
  else
    let st₁ :=
      if m.type = "distributed" then
        match m.capabilities with
        | some (_ :: _) =>
          { st with distributedTools := setAssoc st.distributedTools m.id m }
        | _ => st
      else if m.type = "preprocessor" then
        { st with preprocessorOrder := st.preprocessorOrder ++ [m.id] }
      else if m.type = "service" then
        { st with serviceModules := setAssoc st.serviceModules m.id m }
      else st
    let st₂ := { st₁ with plugins := setAssoc st₁.plugins m.id m }
    let st₃ := { st₂ with descriptions := rebuildVCPDescriptions st₂.plugins }
    .ok (st₃, [.pluginRegistered m.id])

/-- `registerDistributedTools(serverId, tools)`: skip descriptors missing
`name` or `id`; skip (without overwriting or emitting anything) descriptors
whose `id` is already in `this.plugins`; otherwise stamp
`type: 'distributed'`, the server id and the `[云端]` name prefix, and
insert into both tables.  One catalog rebuild at the end.  The method emits
no runtime events at all (only the channel-side `tools_registered` event
exists, emitted elsewhere). -/
def regDistStep (serverId : String) (acc : RuntimeState) (m : Manifest) :
    RuntimeState :=
  if ¬ (jsTruthy (some m.name) && jsTruthy (some m.id)) then acc
  else if (getAssoc acc.plugins m.id).isSome then acc
  else
    let dm := { m with
      type := "distributed"
      serverId := some serverId
      name := "[云端] " ++ m.name }
    { acc with
      distributedTools := setAssoc acc.distributedTools m.id dm
      plugins := setAssoc acc.plugins m.id dm }

def registerDistributedTools (st : RuntimeState) (serverId : String)
    (tools : List Manifest) : RuntimeState × List RTEvent :=
  let st' := tools.foldl (regDistStep serverId) st
  ({ st' with descriptions := rebuildVCPDescriptions st'.plugins }, [])

/-! ## Distributed tool channel (`DistributedServerChannelSDK`)

Embeds `handleToolResult`, `executeDistributedTool` (the synchronous part
plus the armed timeout callback as its own transition), `onConnectionClosed`
and `cleanupPendingRequests`.  Promise settlement is represented as explicit
outcome values; `clearTimeout` is recorded as a boolean on the outcome. -/

/-- `PendingToolRequest` (resolver/rejector handles and the timer object are
represented by the outcomes of the transitions that would invoke them). -/
structure PendingToolRequest where
  requestId : String
  createdAt : Nat
deriving DecidableEq, Repr

/-- `DistributedServerInfo` (the fields the embedded handlers read).
`wsOpen` is `ws.readyState === WebSocket.OPEN`. -/
structure ServerInfo where
  serverId : String
  wsOpen : Bool
  tools : List String
deriving DecidableEq, Repr

/-- Typed `VCPError`s thrown by the channel, with the `details` payloads the
source attaches. -/
inductive ChanErr where
  | distributedConnectionError (serverId : String)
  | distributedTimeout (serverId toolName requestId : String) (timeout : Nat)
deriving DecidableEq, Repr

/-- What a pending request's rejector is called with: a typed `VCPError`, or
a plain `new Error(message)`. -/
inductive RejectReason where
  | typedError (e : ChanErr)
  | plainError (message : String)
deriving DecidableEq, Repr

/-- Settlement of a pending request's promise. -/
inductive Settlement where
  | resolved (result : Option String)
  | rejected (r : RejectReason)
deriving DecidableEq, Repr

/-- Observable outcome of `handleToolResult`. -/
inductive ToolResultOutcome where
  | asyncEmitted (serverId : String)
  | unknownRequest (requestId : String)
  | settled (requestId : String) (timerCancelled : Bool) (s : Settlement)
deriving DecidableEq, Repr

/-- The `data` sub-object of an incoming `tool_result` frame.  `result` and
`error` payloads are abstracted to optional strings. -/
structure ToolResultData where
  requestId : Option String := none
  status : Option String := none
  result : Option String := none
  error : Option String := none
deriving DecidableEq, Repr

/-- `handleToolResult(serverId, message)` (lines 220-249): a falsy
`requestId` means a worker-pushed asynchronous result (emit
`async_tool_result`, touch nothing); an unknown `requestId` is logged and
ignored; otherwise cancel the timer, delete the pending record, and
`pending.resolve(result)` — the destructured `status` and `error` fields
are never read, so the promise is resolved with the frame's `result`
whatever the status. -/
def handleToolResult (serverId : String) (d : ToolResultData)
    (pending : List (String × PendingToolRequest)) :
    List (String × PendingToolRequest) × ToolResultOutcome :=
  if ¬ jsTruthy d.requestId then (pending, .asyncEmitted serverId)
  else
    let rid := d.requestId.getD ""
    match getAssoc pending rid with
    | none => (pending, .unknownRequest rid)
    | some _ => (delAssoc pending rid, .settled rid true (.resolved d.result))

/-- The `execute_tool` frame sent to the worker. -/
structure ExecuteToolFrame where
  requestId : String
  toolName : String
deriving DecidableEq, Repr

/-- Synchronous part of `executeDistributedTool` (lines 293-353): check the
session exists and its socket is OPEN (else throw
`DISTRIBUTED_CONNECTION_ERROR`), then store the pending record and send the
`execute_tool` frame.  The generated request id and `Date.now()` are inputs
(`generateRequestId` is randomized). -/
def executeDistributedTool (servers : List (String × ServerInfo))
    (pending : List (String × PendingToolRequest))
    (serverId toolName rid : String) (now : Nat) :
    Except ChanErr (List (String × PendingToolRequest) × ExecuteToolFrame) :=
  match getAssoc servers serverId with
  | none => .error (.distributedConnectionError serverId)
  | some si =>
    if ¬ si.wsOpen then .error (.distributedConnectionError serverId)
    else
      .ok (setAssoc pending rid { requestId := rid, createdAt := now },
           { requestId := rid, toolName := toolName })

/-- The timeout callback armed by `executeDistributedTool` (lines 323-330):
delete the pending record, then reject with `DISTRIBUTED_TIMEOUT` carrying
`{serverId, toolName, requestId, timeout}`.  Returned in statement order:
the table after the delete, then the rejection. -/
def timeoutFire (pending : List (String × PendingToolRequest))
    (serverId toolName rid : String) (timeout : Nat) :
    List (String × PendingToolRequest) × RejectReason :=
  (delAssoc pending rid,
   .typedError (.distributedTimeout serverId toolName rid timeout))

/-- `cleanupPendingRequests(serverId)` (lines 403-418): for EVERY entry of
the pending table (the record carries no session association), clear its
timer, reject with the plain `new Error('Server <id> disconnected')`, and
delete it.  Returns the (empty) table and the per-request rejections. -/
def cleanupPendingRequests (pending : List (String × PendingToolRequest))
    (serverId : String) :
    List (String × PendingToolRequest) × List (String × RejectReason) :=
  ([], pending.map (fun kv =>
    (kv.1, RejectReason.plainError ("Server " ++ serverId ++ " disconnected"))))

/-- Channel-level events relevant to the claims. -/
inductive ChanEvent where
  | toolsUnregistered (serverId : String) (tools : List String)
deriving DecidableEq, Repr

/-- Channel state: session registry plus the pending-request table. -/
structure ChannelState where
  servers : List (String × ServerInfo)
  pending : List (String × PendingToolRequest)
deriving DecidableEq, Repr

/-- `onConnectionClosed(ws)` (lines 125-149): with a truthy `ws.serverId`,
emit `tools_unregistered` when the session advertised tools, drop the
session, then clean up ALL pending requests. -/
def onConnectionClosed (st : ChannelState) (wsServerId : Option String) :
    ChannelState × List ChanEvent × List (String × RejectReason) :=
  if ¬ jsTruthy wsServerId then (st, [], [])
  else
    let sid := wsServerId.getD ""
    let (evs, servers') :=
      match getAssoc st.servers sid with
      | some si =>
        ((if si.tools ≠ [] then [ChanEvent.toolsUnregistered sid si.tools] else []),
         delAssoc st.servers sid)
      | none => ([], st.servers)
    let (pending', rejs) := cleanupPendingRequests st.pending sid
    ({ servers := servers', pending := pending' }, evs, rejs)

/-! ## File fetcher (`FileFetcher`)

Embeds `fetchFile` with its three layers.  The cache directory and the
local filesystem are an association list / a lookup function in an
environment record; a worker's `fetch_file`/`file_result` exchange is
abstracted to a reply function (`none` covering both a node-side failure
and the 30 s wait timeout, which make `fetchFromDistributedNode` try the
next session). -/

abbrev Bytes := List Nat

/-- `MIME_TYPES`. -/
def MIME_TYPES : List (String × String) :=
  [(".jpg", "image/jpeg"), (".jpeg", "image/jpeg"), (".png", "image/png"),
   (".gif", "image/gif"), (".webp", "image/webp"), (".svg", "image/svg+xml"),
   (".pdf", "application/pdf"), (".txt", "text/plain"),
   (".json", "application/json"), (".xml", "application/xml"),
   (".html", "text/html"), (".css", "text/css"),
   (".js", "application/javascript")]

/-- `getMimeType(extension)`. -/
def getMimeType (ext : String) : String :=
  (getAssoc MIME_TYPES ext.toLower).getD "application/octet-stream"

/-- Node's `path.extname`: the basename's extension from its last dot, empty
for dotfiles and dotless names. -/
def extname (p : String) : String :=
  let base := ((p.toList.reverse.takeWhile (fun c => c ≠ '/')).reverse)
  match base with
  | [] => ""
  | _ :: afterFirst =>
    let tailRev := afterFirst.reverse.takeWhile (fun c => c ≠ '.')
    if tailRev.length = afterFirst.length then ""
    else String.mk ('.' :: tailRev.reverse)

/-- `FileResult`. -/
structure FileResult where
  buffer : Bytes
  mimeType : String
  size : Nat
  fromCache : Bool
  source : String
deriving DecidableEq, Repr

/-- The error `fetchFile` throws when all layers miss
(`TOOL_EXECUTION_FAILED`, message naming the normalized path, details
`{filePath}`). -/
inductive FetchErr where
  | toolExecutionFailed (message : String) (filePath : String)
deriving DecidableEq, Repr

/-- Environment of a `fetchFile` call: the hash used by `getCacheKey`
(SHA-256 hex, abstracted), the cache directory name, the cache directory
contents, the local filesystem, and the connected sessions with their
reply behavior. -/
structure FetchEnv where
  hash : String → String
  cacheDir : String
  cacheFS : List (String × Bytes)
  localFS : String → Option Bytes
  servers : List (String × (String → Option Bytes))

/-- `path.join(this.cacheDir, getCacheKey(path) + extname(path))`. -/
def cachePathOf (env : FetchEnv) (p : String) : String :=
  env.cacheDir ++ "/" ++ env.hash p ++ extname p

/-- `file://` normalization at the top of `fetchFile`
(`filePath.substring(7)`). -/
def normalizeFilePath (filePath : String) : String :=
  if (lit "file://").isPrefixOf filePath.toList then
    String.mk (filePath.toList.drop 7)
  else filePath

/-- `fetchFile(filePath)` (lines 104-157).  Returns the result, the
environment (cache writes are the only mutation) and the updated
`(hits, misses)` counters; all layers missing throws
`TOOL_EXECUTION_FAILED` naming the normalized path. -/
def fetchFile (env : FetchEnv) (stats : Nat × Nat) (filePath : String) :
    Except FetchErr (FileResult × FetchEnv × (Nat × Nat)) :=
  match getAssoc env.cacheFS (cachePathOf env (normalizeFilePath filePath)) with
  | some b =>
    .ok ({ buffer := b,
           mimeType := getMimeType (extname (normalizeFilePath filePath)),
           size := b.length, fromCache := true, source := "local" },
         env, (stats.1 + 1, stats.2))
  | none =>
    match env.localFS (normalizeFilePath filePath) with
    | some b =>
      .ok ({ buffer := b,
             mimeType := getMimeType (extname (normalizeFilePath filePath)),
             size := b.length, fromCache := false, source := "local" },
           { env with cacheFS :=
               setAssoc env.cacheFS (cachePathOf env (normalizeFilePath filePath)) b },
           (stats.1, stats.2 + 1))
    | none =>
      match env.servers.findSome? (fun kv => kv.2 (normalizeFilePath filePath)) with
      | some b =>
        .ok ({ buffer := b,
               mimeType := getMimeType (extname (normalizeFilePath filePath)),
               size := b.length, fromCache := false, source := "distributed" },
             { env with cacheFS :=
                 setAssoc env.cacheFS (cachePathOf env (normalizeFilePath filePath)) b },
             (stats.1, stats.2 + 1))
      | none =>
        .error (.toolExecutionFailed
          ("Failed to fetch file: " ++ normalizeFilePath filePath)
          (normalizeFilePath filePath))

/-! ## Concrete scenarios used by the claims -/

/-- Static providers `A ↦ "{{B}}"`, `B ↦ "{{A}}"` (spec scenario S3). -/
def pAB : Provider := fun k =>
  if k = lit "A" then some (lit "\x7b\x7bB\x7d\x7d")
  else if k = lit "B" then some (lit "\x7b\x7bA\x7d\x7d")
  else none

/-- Key `A<i>` of the linear chain scenario. -/
def keyName (i : Nat) : String := "A" ++ toString i

/-- Chain provider: `A1 ↦ "{{A2}}"`, …, `A<N> ↦ "{{A(N+1)}}"`,
`A(N+1) ↦ "end"`. -/
def chainP (N : Nat) : Provider := fun k =>
  (List.range (N + 1)).findSome? (fun j =>
    let i := j + 1
    if k = lit (keyName i) then
      some (if i = N + 1 then lit "end"
            else lit ("\x7b\x7b" ++ keyName (i + 1) ++ "\x7d\x7d"))
    else none)

/-- Spec scenario S4's plugin, with `type: 'direct'` (this SDK's
`registerPlugin` has no `subprocess` case arm; `direct` is the kind its
subprocess-style executor serves). -/
def sumManifest : Manifest :=
  { id := "Sum", name := "Sum", type := "direct",
    capabilities := some [{ command := some "add",
                            description := some "adds two numbers",
                            «example» := some "add 1 2" }] }

/-- The catalog after registering `sumManifest` into an empty runtime. -/
def c2Catalog : List (String × Chars) :=
  match registerPlugin {} sumManifest with
  | .ok (st, _) => st.descriptions
  | .error _ => []

/-- The catalog entry under `VCPSum`. -/
def c2Entry : Chars := (getAssoc c2Catalog "VCPSum").getD []

/-- Spec scenario S2's request block. -/
def c7Block : Chars :=
  lit "tool_name:「始」Fetch「末」, url:「始」http://x「末」, archery:「始」no_reply「末」"

/-- An opening delimiter with no closing delimiter. -/
def c10NoClose : Chars := lit "<<<[TOOL_REQUEST]>>>tool_name:「始」Ping「末」"

/-- A delimited block lacking a `tool_name` field. -/
def c10NoToolName : Chars :=
  lit "<<<[TOOL_REQUEST]>>>foo:「始」1「末」<<<[END_TOOL_REQUEST]>>>"

/-- A fetch environment where every layer misses. -/
def emptyFetchEnv : FetchEnv :=
  { hash := fun _ => "h", cacheDir := "./file_cache", cacheFS := [],
    localFS := fun _ => none, servers := [] }

/-- A channel state with two connected sessions and two pending requests. -/
def c9State : ChannelState :=
  { servers := [("s1", { serverId := "s1", wsOpen := true, tools := ["T1"] }),
                ("s2", { serverId := "s2", wsOpen := true, tools := ["T2"] })],
    pending := [("r1", { requestId := "r1", createdAt := 1 }),
                ("r2", { requestId := "r2", createdAt := 2 })] }

/-- The connected-but-silent worker session of spec scenario S5. -/
def c3Si : ServerInfo := { serverId := "s1", wsOpen := true, tools := ["Slow"] }

/-- Session table of the distributed-timeout scenario (spec scenario S5). -/
def c3Servers : List (String × ServerInfo) := [("s1", c3Si)]

/-- The pending record the S5 execute call creates. -/
def c3Rec : PendingToolRequest := { requestId := "req-1", createdAt := 0 }

/-- The (empty) pending table before the S5 execute call. -/
def c3Pending : List (String × PendingToolRequest) := []

/-- A locally registered plugin colliding with a distributed descriptor. -/
def c4Local : Manifest := { id := "T", name := "Local", type := "direct" }

/-- The colliding distributed descriptor. -/
def c4Remote : Manifest := { id := "T", name := "Remote", type := "distributed" }

/-- Runtime state already holding `c4Local`. -/
def c4State : RuntimeState := { plugins := [("T", c4Local)] }

/-! ## Association-list lemmas -/

theorem getAssoc_setAssoc_self {α : Type} [DecidableEq α] {β : Type}
    (l : List (α × β)) (k : α) (v : β) :
    getAssoc (setAssoc l k v) k = some v := by
  induction l with
  | nil => simp [setAssoc, getAssoc]
  | cons kv rest ih =>
    obtain ⟨k₀, v₀⟩ := kv
    by_cases h : k₀ = k
    · subst h; simp [setAssoc, getAssoc]
    · simp [setAssoc, getAssoc, h, ih]

theorem getAssoc_setAssoc_ne {α : Type} [DecidableEq α] {β : Type}
    (l : List (α × β)) {k' k : α} (v : β) (h : k' ≠ k) :
    getAssoc (setAssoc l k' v) k = getAssoc l k := by
  induction l with
  | nil => simp [setAssoc, getAssoc, h]
  | cons kv rest ih =>
    obtain ⟨k₀, v₀⟩ := kv
    by_cases h₀ : k₀ = k'
    · subst h₀; simp [setAssoc, getAssoc, h]
    · simp [setAssoc, getAssoc, h₀, ih]

theorem getAssoc_eq_none_of_not_mem {α : Type} [DecidableEq α] {β : Type}
    {l : List (α × β)} {k : α} (h : k ∉ l.map Prod.fst) :
    getAssoc l k = none := by
  induction l with
  | nil => simp [getAssoc]
  | cons kv rest ih =>
    obtain ⟨k₀, v₀⟩ := kv
    simp only [List.map_cons, List.mem_cons, not_or] at h
    have : k₀ ≠ k := fun he => h.1 he.symm
    simp [getAssoc, this, ih h.2]

theorem mem_keys_setAssoc {α : Type} [DecidableEq α] {β : Type}
    (l : List (α × β)) (k : α) (v : β) (x : α) :
    x ∈ (setAssoc l k v).map Prod.fst ↔ x ∈ l.map Prod.fst ∨ x = k := by
  induction l with
  | nil => simp [setAssoc]
  | cons kv rest ih =>
    obtain ⟨k₀, v₀⟩ := kv
    by_cases h : k₀ = k
    · subst h
      simp [setAssoc]
      tauto
    · simp [setAssoc, h, ih]
      tauto

theorem keys_nodup_setAssoc {α : Type} [DecidableEq α] {β : Type}
    {l : List (α × β)} (h : (l.map Prod.fst).Nodup) (k : α) (v : β) :
    ((setAssoc l k v).map Prod.fst).Nodup := by
  induction l with
  | nil => simp [setAssoc]
  | cons kv rest ih =>
    obtain ⟨k₀, v₀⟩ := kv
    simp only [List.map_cons, List.nodup_cons] at h
    by_cases hk : k₀ = k
    · subst hk
      have he : setAssoc ((k₀, v₀) :: rest) k₀ v = (k₀, v) :: rest := by
        simp [setAssoc]
      rw [he]
      simp only [List.map_cons, List.nodup_cons]
      exact h
    · have he : setAssoc ((k₀, v₀) :: rest) k v = (k₀, v₀) :: setAssoc rest k v := by
        simp [setAssoc, hk]
      rw [he]
      simp only [List.map_cons, List.nodup_cons, mem_keys_setAssoc]
      exact ⟨fun hc => hc.elim h.1 hk, ih h.2⟩

theorem getAssoc_delAssoc_self {α : Type} [DecidableEq α] {β : Type}
    {l : List (α × β)} (h : (l.map Prod.fst).Nodup) (k : α) :
    getAssoc (delAssoc l k) k = none := by
  induction l with
  | nil => simp [delAssoc, getAssoc]
  | cons kv rest ih =>
    obtain ⟨k₀, v₀⟩ := kv
    simp only [List.map_cons, List.nodup_cons] at h
    by_cases hk : k₀ = k
    · subst hk
      simp only [delAssoc, if_pos rfl]
      exact getAssoc_eq_none_of_not_mem h.1
    · simp [delAssoc, getAssoc, hk, ih h.2]

theorem findSome?_eq_none_of_all_none {α β : Type} {l : List α}
    {f : α → Option β} (h : ∀ x ∈ l, f x = none) :
    l.findSome? f = none := by
  induction l with
  | nil => rfl
  | cons a rest ih =>
    have ha : f a = none := h a (by simp)
    rw [List.findSome?_cons, ha]
    exact ih (fun x hx => h x (by simp [hx]))

/-! ## Claim theorems -/

/-- C3: on a connected, open session, `executeDistributedTool` stores the
pending record under the fresh request id and sends the `execute_tool`
frame; when the armed timeout callback fires, the pending record is deleted
(the table no longer contains the request id) and the call is rejected with
a `DISTRIBUTED_TIMEOUT` error whose details carry the tool name, the
session id, the request id and the timeout value. -/
theorem c3_execute_timeout_rejects (servers : List (String × ServerInfo))
    (pending : List (String × PendingToolRequest)) (sid tool rid : String)
    (now t : Nat) (si : ServerInfo)
    (hfind : getAssoc servers sid = some si)
    (hopen : si.wsOpen = true)
    (hnodup : (pending.map Prod.fst).Nodup) :
    executeDistributedTool servers pending sid tool rid now =
      .ok (setAssoc pending rid { requestId := rid, createdAt := now },
           { requestId := rid, toolName := tool }) ∧
    getAssoc (setAssoc pending rid { requestId := rid, createdAt := now }) rid =
      some { requestId := rid, createdAt := now } ∧
    (timeoutFire (setAssoc pending rid { requestId := rid, createdAt := now })
        sid tool rid t).2 =
      .typedError (.distributedTimeout sid tool rid t) ∧
    getAssoc (timeoutFire (setAssoc pending rid { requestId := rid, createdAt := now })
        sid tool rid t).1 rid = none := by
  refine ⟨?_, getAssoc_setAssoc_self _ _ _, rfl, ?_⟩
  · unfold executeDistributedTool
    rw [hfind]
    simp [hopen]
  · unfold timeoutFire
    exact getAssoc_delAssoc_self (keys_nodup_setAssoc hnodup _ _) _

theorem c3_execute_timeout_rejects_witness :
    getAssoc c3Servers "s1" = some c3Si ∧
    c3Si.wsOpen = true ∧
    (c3Pending.map Prod.fst).Nodup ∧
    (executeDistributedTool c3Servers c3Pending "s1" "Slow" "req-1" 0 =
      .ok (setAssoc c3Pending "req-1" c3Rec,
           { requestId := "req-1", toolName := "Slow" }) ∧
    getAssoc (setAssoc c3Pending "req-1" c3Rec) "req-1" = some c3Rec ∧
    (timeoutFire (setAssoc c3Pending "req-1" c3Rec) "s1" "Slow" "req-1" 50).2 =
      .typedError (.distributedTimeout "s1" "Slow" "req-1" 50) ∧
    getAssoc (timeoutFire (setAssoc c3Pending "req-1" c3Rec)
        "s1" "Slow" "req-1" 50).1 "req-1" = none) :=
  ⟨by decide, by decide, by decide,
   c3_execute_timeout_rejects c3Servers c3Pending "s1" "Slow" "req-1" 0 50 c3Si
     (by decide) (by decide) (by decide)⟩

/-- C9: closing any one session's socket drains the whole pending table —
`cleanupPendingRequests` rejects and removes every entry, whichever session
the request was issued against (the record carries no session association)
— leaving the table empty, and every rejection is the plain
`new Error('Server <id> disconnected')`, not a typed channel error. -/
theorem c9_close_drains_all_pending (st : ChannelState) (sid : String)
    (h : sid ≠ "") :
    (onConnectionClosed st (some sid)).1.pending = [] ∧
    (onConnectionClosed st (some sid)).2.2 =
      st.pending.map (fun kv =>
        (kv.1, RejectReason.plainError ("Server " ++ sid ++ " disconnected"))) ∧
    ∀ kr ∈ (onConnectionClosed st (some sid)).2.2, ∀ e : ChanErr,
      kr.2 ≠ .typedError e := by
  have hcore : (onConnectionClosed st (some sid)).1.pending = [] ∧
      (onConnectionClosed st (some sid)).2.2 =
        st.pending.map (fun kv =>
          (kv.1, RejectReason.plainError ("Server " ++ sid ++ " disconnected"))) := by
    unfold onConnectionClosed cleanupPendingRequests
    cases hs : getAssoc st.servers sid <;>
      simp [jsTruthy, h, hs]
  refine ⟨hcore.1, hcore.2, ?_⟩
  intro kr hkr e
  rw [hcore.2] at hkr
  obtain ⟨kv, -, hkv⟩ := List.mem_map.mp hkr
  rw [← hkv]
  simp

theorem c9_close_drains_all_pending_witness :
    "s1" ≠ "" ∧
    ((onConnectionClosed c9State (some "s1")).1.pending = [] ∧
    (onConnectionClosed c9State (some "s1")).2.2 =
      c9State.pending.map (fun kv =>
        (kv.1, RejectReason.plainError ("Server " ++ "s1" ++ " disconnected"))) ∧
    ∀ kr ∈ (onConnectionClosed c9State (some "s1")).2.2, ∀ e : ChanErr,
      kr.2 ≠ .typedError e) :=
  ⟨by decide, c9_close_drains_all_pending c9State "s1" (by decide)⟩

/-- C8: `fetchFile` tries cache, then local filesystem, then distributed
workers, in that order, returning at the first hit: a cache hit returns
`fromCache := true, source := 'local'`; a filesystem hit is persisted into
the cache and returned with `source := 'local'`; when every layer misses
the call throws `TOOL_EXECUTION_FAILED` naming the `file://`-normalized
path. -/
theorem c8_fetch_layers (env : FetchEnv) (stats : Nat × Nat) (filePath : String) :
    (∀ b, getAssoc env.cacheFS (cachePathOf env (normalizeFilePath filePath)) = some b →
      fetchFile env stats filePath = .ok
        ({ buffer := b,
           mimeType := getMimeType (extname (normalizeFilePath filePath)),
           size := b.length, fromCache := true, source := "local" },
         env, (stats.1 + 1, stats.2))) ∧
    (∀ b, getAssoc env.cacheFS (cachePathOf env (normalizeFilePath filePath)) = none →
      env.localFS (normalizeFilePath filePath) = some b →
      fetchFile env stats filePath = .ok
        ({ buffer := b,
           mimeType := getMimeType (extname (normalizeFilePath filePath)),
           size := b.length, fromCache := false, source := "local" },
         { env with cacheFS :=
             setAssoc env.cacheFS (cachePathOf env (normalizeFilePath filePath)) b },
         (stats.1, stats.2 + 1)) ∧
      getAssoc (setAssoc env.cacheFS (cachePathOf env (normalizeFilePath filePath)) b)
        (cachePathOf env (normalizeFilePath filePath)) = some b) ∧
    (getAssoc env.cacheFS (cachePathOf env (normalizeFilePath filePath)) = none →
      env.localFS (normalizeFilePath filePath) = none →
      (∀ kv ∈ env.servers, kv.2 (normalizeFilePath filePath) = none) →
      fetchFile env stats filePath = .error
        (.toolExecutionFailed ("Failed to fetch file: " ++ normalizeFilePath filePath)
          (normalizeFilePath filePath))) := by
  refine ⟨?_, ?_, ?_⟩
  · intro b hc
    unfold fetchFile
    rw [hc]
  · intro b hc hl
    refine ⟨?_, getAssoc_setAssoc_self _ _ _⟩
    unfold fetchFile
    rw [hc, hl]
  · intro hc hl hsrv
    unfold fetchFile
    rw [hc, hl, findSome?_eq_none_of_all_none hsrv]

theorem c8_fetch_layers_witness :
    getAssoc emptyFetchEnv.cacheFS
      (cachePathOf emptyFetchEnv (normalizeFilePath "file:///a.png")) = none ∧
    emptyFetchEnv.localFS (normalizeFilePath "file:///a.png") = none ∧
    (∀ kv ∈ emptyFetchEnv.servers, kv.2 (normalizeFilePath "file:///a.png") = none) ∧
    fetchFile emptyFetchEnv (0, 0) "file:///a.png" = .error
      (.toolExecutionFailed ("Failed to fetch file: " ++ normalizeFilePath "file:///a.png")
        (normalizeFilePath "file:///a.png")) :=
  ⟨rfl, rfl, by simp [emptyFetchEnv],
   (c8_fetch_layers emptyFetchEnv (0, 0) "file:///a.png").2.2 rfl rfl
     (by simp [emptyFetchEnv])⟩

/-- C4-helper: the bulk-registration fold never disturbs the entry of an
id that is already registered, and never touches the distributed-tool table
at that id. -/
theorem regDist_foldl_preserves (sid tid : String) (m₀ : Manifest) :
    ∀ (tools : List Manifest) (st : RuntimeState),
      getAssoc st.plugins tid = some m₀ →
      getAssoc (tools.foldl (regDistStep sid) st).plugins tid = some m₀ ∧
      getAssoc (tools.foldl (regDistStep sid) st).distributedTools tid =
        getAssoc st.distributedTools tid := by
  intro tools
  induction tools with
  | nil => intro st h; exact ⟨h, rfl⟩
  | cons m rest ih =>
    intro st h
    have hstep : getAssoc (regDistStep sid st m).plugins tid = some m₀ ∧
        getAssoc (regDistStep sid st m).distributedTools tid =
          getAssoc st.distributedTools tid := by
      unfold regDistStep
      by_cases h₁ : ¬ (jsTruthy (some m.name) && jsTruthy (some m.id))
      · rw [if_pos h₁]
        exact ⟨h, rfl⟩
      · rw [if_neg h₁]
        by_cases h₂ : (getAssoc st.plugins m.id).isSome
        · rw [if_pos h₂]
          exact ⟨h, rfl⟩
        · rw [if_neg h₂]
          have hne : m.id ≠ tid := by
            intro he
            rw [he, h] at h₂
            exact h₂ rfl
          dsimp only
          exact ⟨by rw [getAssoc_setAssoc_ne _ _ hne]; exact h,
                 by rw [getAssoc_setAssoc_ne _ _ hne]⟩
    have := ih (regDistStep sid st m) hstep.1
    exact ⟨this.1, by rw [List.foldl_cons]; rw [this.2, hstep.2]⟩

/-- C4: bulk distributed registration skips a descriptor whose id already
exists in the plugin registry: the existing plugin under that id is
unchanged, the colliding descriptor lands in neither table, and the method
emits no runtime event (in particular no `registered`). -/
theorem c4_bulk_register_refuses_collision (st : RuntimeState)
    (sid tid : String) (m₀ : Manifest) (tools : List Manifest)
    (h : getAssoc st.plugins tid = some m₀) :
    getAssoc (registerDistributedTools st sid tools).1.plugins tid = some m₀ ∧
    getAssoc (registerDistributedTools st sid tools).1.distributedTools tid =
      getAssoc st.distributedTools tid ∧
    (registerDistributedTools st sid tools).2 = [] := by
  have := regDist_foldl_preserves sid tid m₀ tools st h
  exact ⟨this.1, this.2, rfl⟩

theorem c4_bulk_register_refuses_collision_witness :
    getAssoc c4State.plugins "T" = some c4Local ∧
    (getAssoc (registerDistributedTools c4State "s9" [c4Remote]).1.plugins "T" =
      some c4Local ∧
    getAssoc (registerDistributedTools c4State "s9" [c4Remote]).1.distributedTools "T" =
      getAssoc c4State.distributedTools "T" ∧
    (registerDistributedTools c4State "s9" [c4Remote]).2 = []) :=
  ⟨by decide, c4_bulk_register_refuses_collision c4State "s9" "T" c4Local [c4Remote]
    (by decide)⟩

theorem containsSub_iff (pat s : Chars) :
    containsSub pat s = true ↔ ∃ a b, s = a ++ pat ++ b := by
  induction s with
  | nil =>
    by_cases hp : pat = []
    · subst hp
      simp [containsSub, firstMatchPos]
    · simp only [containsSub, firstMatchPos, if_neg hp, Option.isSome_none,
        Bool.false_eq_true, false_iff]
      rintro ⟨a, b, habs⟩
      have : a = [] ∧ pat ++ b = [] := by
        have h' := habs.symm
        rw [List.append_assoc] at h'
        exact List.append_eq_nil.mp h'
      exact hp (List.append_eq_nil.mp this.2).1
  | cons c rest ih =>
    have hstep : containsSub pat (c :: rest) =
        (pat.isPrefixOf (c :: rest) || containsSub pat rest) := by
      by_cases hp : pat.isPrefixOf (c :: rest)
      · simp [containsSub, firstMatchPos, hp]
      · simp [containsSub, firstMatchPos, hp]
    rw [hstep]
    simp only [Bool.or_eq_true]
    constructor
    · rintro (hp | hc)
      · obtain ⟨t, ht⟩ := List.isPrefixOf_iff_prefix.mp hp
        exact ⟨[], t, by simp [← ht]⟩
      · obtain ⟨a, b, hab⟩ := ih.mp hc
        exact ⟨c :: a, b, by simp [hab]⟩
    · rintro ⟨a, b, hab⟩
      cases a with
      | nil =>
        left
        apply List.isPrefixOf_iff_prefix.mpr
        exact ⟨b, by simpa using hab.symm⟩
      | cons a₀ a' =>
        right
        apply ih.mpr
        refine ⟨a', b, ?_⟩
        have h' : c = a₀ ∧ rest = a' ++ pat ++ b := by
          simpa using hab
        exact h'.2

/-- C10: `hasToolRequests` is true exactly when the text contains the
configured opening delimiter, so it can return true while
`parseToolRequests` returns no invocation: an opening delimiter without a
closing one, and a delimited block lacking `tool_name`, are such inputs. -/
theorem c10_has_without_parse :
    (∀ (cfg : ProtocolConfig) (content : Chars),
      hasToolRequests cfg content = true ↔
        ∃ a b, content = a ++ cfg.toolRequestStartMarker ++ b) ∧
    (hasToolRequests defaultProtocolConfig c10NoClose = true ∧
      parseToolRequests defaultProtocolConfig c10NoClose = []) ∧
    (hasToolRequests defaultProtocolConfig c10NoToolName = true ∧
      parseToolRequests defaultProtocolConfig c10NoToolName = []) :=
  ⟨fun cfg content => containsSub_iff cfg.toolRequestStartMarker content,
   ⟨by decide, by decide⟩, ⟨by decide, by decide⟩⟩

theorem c10_has_without_parse_witness :
    hasToolRequests defaultProtocolConfig c10NoClose = true ↔
      ∃ a b, c10NoClose = a ++ defaultProtocolConfig.toolRequestStartMarker ++ b :=
  c10_has_without_parse.1 defaultProtocolConfig c10NoClose

/-- C1 (code evaluated at the failing input): a `tool_result` frame with
`status: 'error'` and an `error` payload, matching pending request `r1`,
makes `handleToolResult` delete the record and cancel its timer but then
RESOLVE the promise with the frame's (absent) `result` — the destructured
`status` and `error` are never consulted, so no rejection with the error
ever happens, contradicting the claim's `status≠success ⇒ reject` half. -/
theorem c1_error_status_still_resolves :
    handleToolResult "node-1"
      { requestId := some "r1", status := some "error",
        result := none, error := some "boom" }
      [("r1", { requestId := "r1", createdAt := 0 })] =
    ([], .settled "r1" true (.resolved none)) := by
  decide

/-- C2, counterexample: the catalog entry for `Sum` exists but does not
contain the claimed literal `"- Sum (Sum) - command: add:"` — the source
renders the label as `命令` (and the example label as `调用示例`), not
`command`. -/
theorem c2_counterexample :
    (getAssoc c2Catalog "VCPSum").isSome = true ∧
    containsSub (lit "- Sum (Sum) - command: add:") c2Entry = false := by
  constructor
  · decide
  · decide

/-- C2, amended: after registering the `Sum` plugin, the catalog entry under
`VCPSum` contains `"- Sum (Sum) - 命令: add:"` (the header with the
Chinese label the source actually emits), `"adds two numbers"`, and
`"add 1 2"`. -/
theorem c2_catalog_contents :
    containsSub (lit "- Sum (Sum) - 命令: add:") c2Entry = true ∧
    containsSub (lit "adds two numbers") c2Entry = true ∧
    containsSub (lit "add 1 2") c2Entry = true := by
  refine ⟨by decide, by decide, by decide⟩

/-- C6, counterexample: with the default cap 10, resolving the chain with
N = cap = 10 does NOT fail with a max-recursion-depth error — the engine
returns successfully with the eleventh placeholder left unexpanded (the
depth error raised at the cap is swallowed by the provider-loop `catch`,
which rethrows only `CircularDependencyError`). -/
theorem c6_counterexample :
    resolveAll defaultEngineOptions [chainP 10] (lit "\x7b\x7bA1\x7d\x7d") =
      .ok (lit "\x7b\x7bA11\x7d\x7d") := by
  decide

/-- C6, amended: the chain resolves fully (to `"end"`) for every N below
the cap, and at N = cap the call still succeeds, returning the text with
`{{A11}}` unexpanded instead of failing. -/
theorem c6_depth_cap_truncates :
    (∀ N, N < 10 →
      resolveAll defaultEngineOptions [chainP N] (lit "\x7b\x7bA1\x7d\x7d") =
        .ok (lit "end")) ∧
    resolveAll defaultEngineOptions [chainP 10] (lit "\x7b\x7bA1\x7d\x7d") =
      .ok (lit "\x7b\x7bA11\x7d\x7d") := by
  constructor
  · decide
  · decide

theorem c6_depth_cap_truncates_witness :
    3 < 10 ∧
    resolveAll defaultEngineOptions [chainP 3] (lit "\x7b\x7bA1\x7d\x7d") =
      .ok (lit "end") :=
  ⟨by decide, c6_depth_cap_truncates.1 3 (by decide)⟩

theorem paramStep_flag_of_ne (acc : Option Chars × List (Chars × Chars) × Bool)
    (kv : Chars × Chars) (h : kv.1 ≠ lit "archery") :
    (paramStep acc kv).2.2 = acc.2.2 := by
  simp only [paramStep]
  by_cases h₁ : kv.1 = lit "tool_name"
  · rw [if_pos h₁]
  · rw [if_neg h₁, if_neg h]

theorem foldl_paramStep_flag_const (ps : List (Chars × Chars)) :
    ∀ acc, (∀ kv ∈ ps, kv.1 ≠ lit "archery") →
      (ps.foldl paramStep acc).2.2 = acc.2.2 := by
  induction ps with
  | nil => intro acc _; rfl
  | cons kv rest ih =>
    intro acc h
    rw [List.foldl_cons,
      ih _ (fun x hx => h x (List.mem_cons_of_mem _ hx)),
      paramStep_flag_of_ne _ _ (h kv (List.mem_cons_self _ _))]

theorem paramStep_args_preserve (acc : Option Chars × List (Chars × Chars) × Bool)
    (kv : Chars × Chars) (h : getAssoc acc.2.1 (lit "archery") = none) :
    getAssoc (paramStep acc kv).2.1 (lit "archery") = none := by
  simp only [paramStep]
  by_cases h₁ : kv.1 = lit "tool_name"
  · rw [if_pos h₁]; exact h
  · rw [if_neg h₁]
    by_cases h₂ : kv.1 = lit "archery"
    · rw [if_pos h₂]; exact h
    · rw [if_neg h₂]
      dsimp only
      rw [getAssoc_setAssoc_ne _ _ h₂]
      exact h

theorem foldl_paramStep_args (ps : List (Chars × Chars)) :
    ∀ acc, getAssoc acc.2.1 (lit "archery") = none →
      getAssoc (ps.foldl paramStep acc).2.1 (lit "archery") = none := by
  induction ps with
  | nil => intro acc h; exact h
  | cons kv rest ih =>
    intro acc h
    rw [List.foldl_cons]
    exact ih _ (paramStep_args_preserve _ _ h)

theorem foldl_paramStep_archery (l₁ l₂ : List (Chars × Chars)) (v : Chars)
    (acc : Option Chars × List (Chars × Chars) × Bool)
    (h : ∀ kv ∈ l₂, kv.1 ≠ lit "archery") :
    ((l₁ ++ (lit "archery", v) :: l₂).foldl paramStep acc).2.2 =
      (decide (jsTrim v = lit "true") || decide (jsTrim v = lit "no_reply")) := by
  rw [List.foldl_append, List.foldl_cons, foldl_paramStep_flag_const l₂ _ h]
  simp only [paramStep]
  rw [if_neg (show (lit "archery" : Chars) ≠ lit "tool_name" by decide)]
  simp

/-- C7: `parseRequestBlock`'s field dispatch never puts the reserved
`archery` field into the argument map, sets the fire-and-forget flag to
true exactly when the (sole) archery field's trimmed value is `"true"` or
`"no_reply"`, and on the spec's block
`tool_name:「始」Fetch「末」, url:「始」http://x「末」, archery:「始」no_reply「末」`
yields exactly `{name: "Fetch", args: {url: "http://x"}, archery: true}`. -/
theorem c7_archery_semantics :
    (∀ ps : List (Chars × Chars),
      getAssoc (processParams ps).2.1 (lit "archery") = none) ∧
    (∀ (l₁ l₂ : List (Chars × Chars)) (v : Chars),
      (∀ kv ∈ l₂, kv.1 ≠ lit "archery") →
      ((processParams (l₁ ++ (lit "archery", v) :: l₂)).2.2 = true ↔
        (jsTrim v = lit "true" ∨ jsTrim v = lit "no_reply"))) ∧
    parseRequestBlock defaultProtocolConfig c7Block =
      some { name := lit "Fetch", args := [(lit "url", lit "http://x")],
             archery := true, rawText := c7Block } := by
  refine ⟨?_, ?_, by decide⟩
  · intro ps
    exact foldl_paramStep_args ps _ rfl
  · intro l₁ l₂ v h
    unfold processParams
    rw [foldl_paramStep_archery l₁ l₂ v _ h]
    simp

theorem c7_archery_semantics_witness :
    (∀ kv ∈ ([(lit "z", lit "1")] : List (Chars × Chars)),
      kv.1 ≠ lit "archery") ∧
    ((processParams
        ([(lit "k", lit "v")] ++ (lit "archery", lit "no_reply") ::
          [(lit "z", lit "1")])).2.2 = true ↔
      (jsTrim (lit "no_reply") = lit "true" ∨
       jsTrim (lit "no_reply") = lit "no_reply")) :=
  ⟨by decide,
   c7_archery_semantics.2.1 [(lit "k", lit "v")] [(lit "z", lit "1")]
     (lit "no_reply") (by decide)⟩

theorem pAB_none {k : Chars} (h1 : k ≠ lit "A") (h2 : k ≠ lit "B") :
    pAB k = none := by
  simp [pAB, h1, h2]

theorem resolveRec_succ (dc : Bool) (P : List Provider) (g : Nat)
    (content : Chars) (stack : List Chars) :
    resolveRec dc P (g + 1) content stack =
      (if (extractPlaceholders content).length > MAX_PLACEHOLDERS then
        .error (.tooManyPlaceholders (extractPlaceholders content).length)
      else
        match goPlaceholdersF dc P (resolveRec dc P g)
            (extractPlaceholders content) stack [] with
        | .error e => .error e
        | .ok (reps, stack') =>
          .ok (reps.foldl (fun c kv => replaceAllSub kv.1 kv.2 c) content,
               stack')) := rfl

theorem c5_goPh (phs : List (Chars × Chars)) :
    ∀ reps : List (Chars × Chars),
    (∃ kf ∈ phs, kf.1 = lit "A" ∨ kf.1 = lit "B") →
    ∃ k stk, goPlaceholdersF true [pAB] (resolveRec true [pAB] 9) phs [] reps =
        .error (.circular k stk) ∧
      ((k = lit "A" ∧ stk = [lit "A", lit "B"]) ∨
       (k = lit "B" ∧ stk = [lit "B", lit "A"])) := by
  induction phs with
  | nil =>
    rintro reps ⟨kf, hkf, -⟩
    simp at hkf
  | cons kf rest ih =>
    rintro reps ⟨kf', hkf', hAB⟩
    obtain ⟨key, full⟩ := kf
    by_cases hA : key = lit "A"
    · subst hA
      have h9 : providerLoopF (resolveRec true [pAB] 9) [pAB] (lit "A") none
          ([] : List Chars) = .error (.circular (lit "A") [lit "A", lit "B"]) := by
        decide
      refine ⟨lit "A", [lit "A", lit "B"], ?_, Or.inl ⟨rfl, rfl⟩⟩
      simp only [goPlaceholdersF]
      rw [if_neg (by simp), h9]
    · by_cases hB : key = lit "B"
      · subst hB
        have h9 : providerLoopF (resolveRec true [pAB] 9) [pAB] (lit "B") none
            ([] : List Chars) = .error (.circular (lit "B") [lit "B", lit "A"]) := by
          decide
        refine ⟨lit "B", [lit "B", lit "A"], ?_, Or.inr ⟨rfl, rfl⟩⟩
        simp only [goPlaceholdersF]
        rw [if_neg (by simp), h9]
      · have hmem : ∃ kf ∈ rest, kf.1 = lit "A" ∨ kf.1 = lit "B" := by
          rcases List.mem_cons.mp hkf' with he | hr
          · exfalso
            subst he
            rcases hAB with h | h
            · exact hA h
            · exact hB h
          · exact ⟨kf', hr, hAB⟩
        have hpl : providerLoopF (resolveRec true [pAB] 9) [pAB] key none
            ([] : List Chars) = .ok (none, []) := by
          simp only [providerLoopF]
          rw [pAB_none hA hB]
        have hstep : goPlaceholdersF true [pAB] (resolveRec true [pAB] 9)
            ((key, full) :: rest) [] reps =
            goPlaceholdersF true [pAB] (resolveRec true [pAB] 9) rest [] reps := by
          simp only [goPlaceholdersF]
          rw [if_neg (by simp), hpl]
        rw [hstep]
        exact ih reps hmem

/-- C5: with cycle detection on (the defaults), resolving any text whose
placeholder set stays under the fan-out guard and mentions `A` or `B`
against the providers `A ↦ "{{B}}"`, `B ↦ "{{A}}"` fails the whole call
with a `CircularDependencyError` naming the offending key and carrying the
resolution stack at the moment of detection; no substituted text is
returned. -/
theorem c5_cycle_fails_resolve (content : Chars)
    (hlen : (extractPlaceholders content).length ≤ 100)
    (hmem : (lit "A") ∈ (extractPlaceholders content).map Prod.fst ∨
            (lit "B") ∈ (extractPlaceholders content).map Prod.fst) :
    ∃ k stk, resolveAll defaultEngineOptions [pAB] content =
        .error (.circular k stk) ∧
      ((k = lit "A" ∧ stk = [lit "A", lit "B"]) ∨
       (k = lit "B" ∧ stk = [lit "B", lit "A"])) := by
  have hex : ∃ kf ∈ extractPlaceholders content,
      kf.1 = lit "A" ∨ kf.1 = lit "B" := by
    rcases hmem with h | h
    · obtain ⟨kf, hkf, he⟩ := List.mem_map.mp h
      exact ⟨kf, hkf, Or.inl he⟩
    · obtain ⟨kf, hkf, he⟩ := List.mem_map.mp h
      exact ⟨kf, hkf, Or.inr he⟩
  have hne : content ≠ [] := by
    intro he
    rw [he] at hex
    obtain ⟨kf, hkf, -⟩ := hex
    simp [extractPlaceholders, extractRaw, extractRawGo, dedupGo] at hkf
  obtain ⟨k, stk, hgo, hks⟩ := c5_goPh (extractPlaceholders content) [] hex
  refine ⟨k, stk, ?_, hks⟩
  unfold resolveAll
  rw [if_neg hne]
  dsimp only [defaultEngineOptions]
  rw [if_pos rfl]
  rw [show (10 : Nat) = 9 + 1 from rfl, resolveRec_succ]
  rw [if_neg (by simp only [MAX_PLACEHOLDERS]; omega), hgo]
  rfl

theorem c5_cycle_fails_resolve_witness :
    (extractPlaceholders (lit "start \x7b\x7bA\x7d\x7d end")).length ≤ 100 ∧
    ((lit "A") ∈ (extractPlaceholders (lit "start \x7b\x7bA\x7d\x7d end")).map Prod.fst ∨
     (lit "B") ∈ (extractPlaceholders (lit "start \x7b\x7bA\x7d\x7d end")).map Prod.fst) ∧
    (∃ k stk, resolveAll defaultEngineOptions [pAB] (lit "start \x7b\x7bA\x7d\x7d end") =
        .error (.circular k stk) ∧
      ((k = lit "A" ∧ stk = [lit "A", lit "B"]) ∨
       (k = lit "B" ∧ stk = [lit "B", lit "A"]))) :=
  ⟨by decide, by decide,
   c5_cycle_fails_resolve (lit "start \x7b\x7bA\x7d\x7d end") (by decide)
     (by decide)⟩

end VCP
